import Mathlib

/-!
Shallow embedding of the log-reshaping pipeline in src/app.py (YU-JIERU/logdeta)
and proofs about the claims of its specification.

The program is a pandas pipeline: load_csv normalizes each uploaded CSV file
(header cleanup and renaming, doubled-header row removal, whitespace stripping,
two-digit-year promotion, strict date parse, lenient clock parse, datetime
construction), filter_by_interval downsamples one table onto a fixed time grid,
and merge_and_sort concatenates, deduplicates and sorts the per-file tables.

Conventions of the embedding:
- a timestamp (the datetime column) is an integer number of seconds since the
  Unix epoch; pandas datetime64 values are at second precision here because
  every parsed input has whole-second resolution;
- a table is a list of rows in order; a row of the downsampling and merging
  stages is its timestamp plus the remaining column values as strings
  (the merge stage compares whole rows, which this tuple captures);
- cells hold no missing values: load_csv reads every column as str, and the
  claims under study exercise files whose cells are all present, so
  GroupBy.first picks exactly the first row of each group;
- the datetime_rounded helper column that filter_by_interval leaves in its
  output is a function of the retained row and is not modelled; no claim
  mentions it and it does not change row identity comparisons used here.
-/

namespace Logdeta

/-- A row as seen by the downsampling and merging stages: the derived datetime
(seconds since epoch) together with the other column values of the row. -/
structure Row where
  dt : Int
  vals : List String
deriving DecidableEq

/-- Floor of a timestamp to a multiple of the interval, counted from the epoch.
This is the semantics of pandas Series.dt.floor with a fixed frequency of
interval seconds: each value v becomes v - (v mod interval), the modulo taken
with the sign of the divisor, hence floor toward minus infinity. -/
def floorToInterval (n : Int) (t : Int) : Int :=
  n * t.fdiv n

/-- Duplicate removal keeping the first occurrence, with an accumulator of the
values already seen. This is the semantics of pandas drop_duplicates with the
default keep equal to first. -/
def dedupKeepFirstAux {α : Type} [DecidableEq α] (seen : List α) : List α → List α
  | [] => []
  | x :: xs =>
    if x ∈ seen then dedupKeepFirstAux seen xs
    else x :: dedupKeepFirstAux (x :: seen) xs

/-- Duplicate removal keeping the first occurrence. -/
def dedupKeepFirst {α : Type} [DecidableEq α] (l : List α) : List α :=
  dedupKeepFirstAux [] l

/-- Sorting a table ascending by the datetime column. The source calls pandas
sort_values on the datetime column; this embedding uses a deterministic
comparison sort. The source default sort algorithm gives no guarantee on
the relative order of rows with equal datetime, so nothing proved here may
rely on the tie order of this stand-in. -/
def sortByDatetime (rows : List Row) : List Row :=
  List.insertionSort (fun a b => a.dt ≤ b.dt) rows

/-- Semantics of df.groupby(k).first() for a key derived from the datetime
column, under the no-missing-values convention: group keys are listed in
ascending order (pandas groupby sorts keys by default), and each group is
represented by its first row in the original row order of the table. -/
def groupFirstBy (key : Int → Int) (rows : List Row) : List Row :=
  (List.insertionSort (fun a b => a ≤ b)
      (dedupKeepFirst (rows.map (fun r => key r.dt)))).filterMap
    (fun k => rows.find? (fun r => key r.dt == k))

/-- Embedding of filter_by_interval (src/app.py lines 61-78): with a
non-positive interval the table is returned unchanged; otherwise rows are
grouped by their datetime floored to the interval grid (pandas dt.floor,
anchored at the epoch) and each group keeps its first row. The critical
measurement column dropna (lines 75-76) never fires under the
no-missing-values convention. -/
def filter_by_interval (rows : List Row) (n : Int) : List Row :=
  if n ≤ 0 then rows
  else groupFirstBy (fun t => floorToInterval n t) rows

/-- Embedding of merge_and_sort (src/app.py lines 86-105): drop empty tables,
concatenate, drop fully duplicated rows keeping the first, sort ascending by
datetime. The column reordering of lines 94-99 permutes columns only and is
not visible in this row model. -/
def merge_and_sort (dfs : List (List Row)) : List Row :=
  let ne := dfs.filter (fun d => !d.isEmpty)
  if ne.isEmpty then []
  else sortByDatetime (dedupKeepFirst ne.flatten)

/-- Modelled from the spec for comparison with the code: a downsampler with an
explicit base Timestamp, assigning each row the bucket key
floor((timestamp - base) / intervalSeconds) and keeping one row per bucket. -/
def downsample_with_base (base n : Int) (rows : List Row) : List Row :=
  if n ≤ 0 then rows
  else groupFirstBy (fun t => (t - base).fdiv n) rows

/-- Minimum datetime across all rows of all tables of a batch (0 when the
batch holds no rows); the base Timestamp that the spec prescribes. -/
def batch_min_dt (dfs : List (List Row)) : Int :=
  match (dfs.flatten).map Row.dt with
  | [] => 0
  | t :: ts => ts.foldl min t

/-- Embedding of the downsampling loop of main (src/app.py lines 166-174):
every table of the batch goes through filter_by_interval with the same
interval; no batch-wide base is computed anywhere in main. -/
def main_reduce_phase (dfs : List (List Row)) (n : Int) : List (List Row) :=
  dfs.map (fun df => filter_by_interval df n)

/-- Modelled from the spec for comparison with the code: the downsampling loop
as the claim describes it, with the batch minimum Timestamp as shared base. -/
def main_reduce_claimed (dfs : List (List Row)) (n : Int) : List (List Row) :=
  dfs.map (fun df => downsample_with_base (batch_min_dt dfs) n df)

/-- Modelled from the spec for comparison with the code: a downsampler that
keeps, in each bucket, the first row when rows are ordered by ascending
Timestamp rather than by their order in the file. -/
def downsample_asc_first (n : Int) (rows : List Row) : List Row :=
  if n ≤ 0 then rows
  else groupFirstBy (fun t => floorToInterval n t) (sortByDatetime rows)

/-!
Embedding of load_csv (src/app.py lines 17-58). Strings are handled through
their character lists so that every operation is structurally recursive and
evaluates inside the kernel. The whitespace class below covers the characters
the source regex classes name explicitly (the space, tab, carriage return,
line feed, vertical tab, form feed of the Python class for whitespace, and
the ideographic space U+3000 the source adds); other exotic Unicode spaces are
outside the inputs the claims exercise.
-/

/-- Whitespace characters removed by the cleanup regexes of lines 25 and
40-41. -/
def isWsChar (c : Char) : Bool :=
  c = ' ' || c = '\t' || c = '\n' || c = '\r' ||
  c = (Char.ofNat 11) || c = (Char.ofNat 12) || c = (Char.ofNat 0x3000)

/-- Removal of every whitespace character of a string; the net effect of the
strip and replace chain on headers (line 25) and of the replace on the date
and clock cells (lines 40-41). -/
def stripWs (s : String) : String :=
  String.mk (s.data.filter (fun c => !isWsChar c))

/-- Python substring membership (the in operator on str), as infix of the
character list. -/
def strContains (s pat : String) : Bool :=
  decide (pat.data <:+: s.data)

/-- Python str.lower on the character list. The headers the role comparison
meets are compared against ASCII words, for which the per-character lowering
agrees with Python. -/
def strLower (s : String) : String :=
  String.mk (s.data.map Char.toLower)

/-- Python str.split on a single separator character, on character lists. -/
def splitChar (sep : Char) : List Char → List (List Char)
  | [] => [[]]
  | c :: cs =>
    let r := splitChar sep cs
    if c = sep then [] :: r
    else
      match r with
      | [] => [[c]]
      | g :: gs => (c :: g) :: gs

/-- Python str.split on a single separator character, on strings. -/
def strSplit (s : String) (sep : Char) : List String :=
  (splitChar sep s.data).map String.mk

/-- Numeric value of a list of decimal digit characters. -/
def digitsVal (ds : List Char) : Nat :=
  ds.foldl (fun n c => 10 * n + (c.toNat - 48)) 0

/-- Python int() on a whitespace-free string: an optional sign followed by at
least one decimal digit; anything else raises ValueError, modelled as none. -/
def pyInt (s : String) : Option Int :=
  match s.data with
  | [] => none
  | '+' :: ds =>
    if ds ≠ [] && ds.all Char.isDigit then some (digitsVal ds) else none
  | '-' :: ds =>
    if ds ≠ [] && ds.all Char.isDigit then some (-(digitsVal ds : Int)) else none
  | ds =>
    if ds.all Char.isDigit then some (digitsVal ds) else none

/-- Embedding of convert_short_year_to_full (src/app.py lines 8-14): split the
date string on the slash; when there are exactly three parts and the first is
two characters long, read it as an integer (a failure of int() propagates as
none and, in load_csv, aborts the file), add 2000 when below 70 and 1900
otherwise, and rebuild the string; every other shape passes through. -/
def convert_short_year_to_full (date_str : String) : Option String :=
  match strSplit date_str '/' with
  | [p0, p1, p2] =>
    if p0.length = 2 then
      (pyInt p0).map (fun y =>
        let y := y + (if y < 70 then 2000 else 1900)
        toString y ++ "/" ++ p1 ++ "/" ++ p2)
    else some date_str
  | _ => some date_str

/-- A parsed calendar date. -/
structure Date where
  y : Nat
  m : Nat
  d : Nat
deriving DecidableEq

/-- A parsed clock value. -/
structure Clock where
  h : Nat
  mi : Nat
  s : Nat
deriving DecidableEq

/-- Leap year rule of the Gregorian calendar. -/
def isLeap (y : Nat) : Bool :=
  y % 4 = 0 && (y % 100 ≠ 0 || y % 400 = 0)

/-- Days in a month of the Gregorian calendar. -/
def daysInMonth (y m : Nat) : Nat :=
  if m = 2 then (if isLeap y then 29 else 28)
  else if m = 4 || m = 6 || m = 9 || m = 11 then 30
  else 31

/-- List of decimal digits of bounded length, at least one digit. -/
def digitsLen (ds : List Char) (k : Nat) : Bool :=
  ds ≠ [] && ds.length ≤ k && ds.all Char.isDigit

/-- Embedding of the strict date parse of line 46, pandas to_datetime with
format %Y/%m/%d and errors raise: the slash-separated parts are one to four
digits for the year and one to two digits for month and day, the whole string
is consumed, the calendar date must exist, and the result must fit in a pandas
Timestamp (whose nanosecond range covers the full years 1678 to 2261; a date
outside raises and, like any parse failure here, is modelled as none). -/
def parseDateStrict (s : String) : Option Date :=
  match strSplit s '/' with
  | [ys, ms, ds] =>
    if digitsLen ys.data 4 && digitsLen ms.data 2 && digitsLen ds.data 2 then
      let y := digitsVal ys.data
      let m := digitsVal ms.data
      let d := digitsVal ds.data
      if 1678 ≤ y && y ≤ 2261 && 1 ≤ m && m ≤ 12 && 1 ≤ d && d ≤ daysInMonth y m
      then some ⟨y, m, d⟩ else none
    else none
  | _ => none

/-- Embedding of the lenient clock parse of line 47, pandas to_datetime with
no format on a clock string: one or two digits for each colon-separated field,
seconds optional, fields within clock range. Other shapes pandas would accept
(full datetimes and so on) are outside the inputs the claims exercise; any
unparsable value raises and is modelled as none. -/
def parseClockLenient (s : String) : Option Clock :=
  match strSplit s ':' with
  | [hs, ms] =>
    if digitsLen hs.data 2 && digitsLen ms.data 2 then
      let h := digitsVal hs.data
      let mi := digitsVal ms.data
      if h ≤ 23 && mi ≤ 59 then some ⟨h, mi, 0⟩ else none
    else none
  | [hs, ms, ss] =>
    if digitsLen hs.data 2 && digitsLen ms.data 2 && digitsLen ss.data 2 then
      let h := digitsVal hs.data
      let mi := digitsVal ms.data
      let sec := digitsVal ss.data
      if h ≤ 23 && mi ≤ 59 && sec ≤ 59 then some ⟨h, mi, sec⟩ else none
    else none
  | _ => none

/-- Decimal digits of a number padded to two characters, strftime %M style. -/
def pad2 (n : Nat) : String :=
  if n < 10 then "0" ++ toString n else toString n

/-- Decimal digits of a number padded to four characters, strftime %Y style. -/
def pad4 (n : Nat) : String :=
  if n < 10 then "000" ++ toString n
  else if n < 100 then "00" ++ toString n
  else if n < 1000 then "0" ++ toString n
  else toString n

/-- strftime with format %Y-%m-%d, as on line 46. -/
def formatDate (d : Date) : String :=
  pad4 d.y ++ "-" ++ pad2 d.m ++ "-" ++ pad2 d.d

/-- strftime with format %H:%M:%S, as on line 47. -/
def formatClock (c : Clock) : String :=
  pad2 c.h ++ ":" ++ pad2 c.mi ++ ":" ++ pad2 c.s

/-- Normalization of one date cell through lines 44 and 46: two-digit year
promotion, strict parse, reformat. -/
def normalize_date (s : String) : Option String :=
  ((convert_short_year_to_full s).bind parseDateStrict).map formatDate

/-- A CSV file as decoded by read_csv with dtype str: the header strings and
the rows of cell strings, in file order. -/
structure RawFile where
  headers : List String
  cells : List (List String)

/-- A row after the date and clock columns have been located: the date cell,
the clock cell, and the remaining cells in order. -/
structure RawRow where
  date : String
  clock : String
  rest : List String
deriving DecidableEq

/-- A normalized output row of load_csv: the reformatted date and clock
strings and the untouched remaining cells. The derived datetime column of
line 50 is a function of these two strings and is constructed downstream. -/
structure NRow where
  date : String
  clock : String
  rest : List String
deriving DecidableEq

/-- Diagnostics load_csv can emit: the warning of line 34 when a date or
clock column is missing, and the error of lines 56-57 when an exception is
caught. -/
inductive Diag where
  | schemaWarning : Diag
  | loadError : Diag
deriving DecidableEq

/-- Header renaming of lines 26-31: a cleaned header containing the Japanese
date token, or lowercasing to date or day, becomes the canonical date header;
otherwise one containing the Japanese clock token, or lowercasing to the word
for clock readings, becomes the canonical clock header; anything else is a
passthrough column. -/
def renameHeader (c : String) : String :=
  if strContains c "日付" || strLower c = "date" || strLower c = "day" then "日付"
  else if strContains c "時刻" || strLower c = "time" then "時刻"
  else c

/-- Headers after the cleanup of line 25 and the renaming of lines 26-31. -/
def renamedHeaders (f : RawFile) : List String :=
  f.headers.map (fun h => renameHeader (stripWs h))

/-- Number of columns carrying the given canonical header. -/
def countRole (hs : List String) (role : String) : Nat :=
  (hs.filter (fun h => h = role)).length

/-- The claim notion of a well-formed schema: exactly one date-role column
and exactly one clock-role column after renaming. -/
def schema_ok (f : RawFile) : Prop :=
  countRole (renamedHeaders f) "日付" = 1 ∧ countRole (renamedHeaders f) "時刻" = 1

instance (f : RawFile) : Decidable (schema_ok f) := by
  unfold schema_ok
  infer_instance

/-- Position of the unique date-role column. -/
def dateIdx (f : RawFile) : Nat :=
  (renamedHeaders f).indexOf "日付"

/-- Position of the unique clock-role column. -/
def clockIdx (f : RawFile) : Nat :=
  (renamedHeaders f).indexOf "時刻"

/-- Cell of a row at a column position (missing trailing cells read as the
empty string; the claim inputs are rectangular so this default is inert). -/
def getCell (row : List String) (i : Nat) : String :=
  (row.get? i).getD ""

/-- Splitting of one cell row into date cell, clock cell and the remaining
cells in order, given the two role positions. -/
def toRawRow (di ti : Nat) (row : List String) : RawRow :=
  ⟨getCell row di, getCell row ti,
    (row.enum.filter (fun p => p.1 ≠ di && p.1 ≠ ti)).map (fun p => p.2)⟩

/-- Rows of a file viewed through the resolved date and clock columns. -/
def file_raw_rows (f : RawFile) : List RawRow :=
  f.cells.map (toRawRow (dateIdx f) (clockIdx f))

/-- Keep condition of the doubled-header filter of line 38: the date cell
must not contain the date header token and the clock cell must not contain
the clock header token. -/
def notHeaderRow (r : RawRow) : Bool :=
  !(strContains r.date "日付") && !(strContains r.clock "時刻")

/-- Whitespace removal of lines 40-41 on the date and clock cells. -/
def stripRow (r : RawRow) : RawRow :=
  { r with date := stripWs r.date, clock := stripWs r.clock }

/-- Keep condition of the blank filter of line 42: both stripped cells are
non-empty. -/
def nonBlank (r : RawRow) : Bool :=
  !(r.date = "") && !(r.clock = "")

/-- Rows that reach the parsing steps of lines 44-47: the doubled-header
filter of line 38, then the whitespace strip of lines 40-41, then the blank
filter of line 42. -/
def pre_parse (rows : List RawRow) : List RawRow :=
  ((rows.filter notHeaderRow).map stripRow).filter nonBlank

/-- Parsing of one surviving row through lines 44-50: two-digit year
promotion (an int() failure raises), strict date parse (raises on failure),
lenient clock parse (raises on failure), reformatting of both cells. The
combined parse of line 50 with errors coerce always succeeds on the
well-formed strings produced here, because line 46 has already rejected
invalid and out-of-range dates while raising, so the row drop of line 51
never fires. -/
def parse_row (r : RawRow) : Option NRow := do
  let ds ← convert_short_year_to_full r.date
  let d ← parseDateStrict ds
  let c ← parseClockLenient r.clock
  pure ⟨formatDate d, formatClock c, r.rest⟩

/-- Sequencing of the per-row parses of a column apply chain: the first
failure aborts the whole sequence, mirroring the first raised exception. -/
def traverseOpt {α β : Type} (f : α → Option β) : List α → Option (List β)
  | [] => some []
  | x :: xs =>
    match f x, traverseOpt f xs with
    | some y, some ys => some (y :: ys)
    | _, _ => none

/-- Row normalization of lines 38-53: any raising parse step on any row
aborts the whole file through the except handler of lines 55-58; otherwise
all surviving rows are returned in order. -/
def normalize_rows (rows : List RawRow) : Except Diag (List NRow) :=
  match traverseOpt parse_row (pre_parse rows) with
  | some ns => Except.ok ns
  | none => Except.error Diag.loadError

/-- Embedding of load_csv (src/app.py lines 17-58): clean and rename the
headers; when no date-role or no clock-role column exists, warn and return
an empty table (lines 33-35); when a role is carried by several columns, the
column access of line 38 or 40 yields a sub-DataFrame whose missing str
accessor raises AttributeError, caught at line 55, hence an empty table with
an error diagnostic; otherwise normalize the rows, where any row parse
failure likewise empties the file with an error diagnostic. -/
def load_csv (f : RawFile) : List NRow × List Diag :=
  if countRole (renamedHeaders f) "日付" = 0 ∨ countRole (renamedHeaders f) "時刻" = 0 then
    ([], [Diag.schemaWarning])
  else if 1 < countRole (renamedHeaders f) "日付" ∨ 1 < countRole (renamedHeaders f) "時刻" then
    ([], [Diag.loadError])
  else
    match normalize_rows (file_raw_rows f) with
    | Except.ok ns => (ns, [])
    | Except.error d => ([], [d])

/-- Embedding of the reading loop of main (src/app.py lines 151-157): every
uploaded file goes through load_csv independently. -/
def main_load_phase (batch : List RawFile) : List (List NRow × List Diag) :=
  batch.map load_csv

/-! Helper lemmas shared by the claim theorems. -/

theorem count_dedupKeepFirstAux {α : Type} [DecidableEq α] (a : α) :
    ∀ (l seen : List α),
      (dedupKeepFirstAux seen l).count a =
        if a ∈ seen then 0 else min (l.count a) 1 := by
  intro l
  induction l with
  | nil =>
    intro seen
    simp [dedupKeepFirstAux]
  | cons x xs ih =>
    intro seen
    by_cases hx : x ∈ seen
    · rw [dedupKeepFirstAux, if_pos hx, ih]
      by_cases ha : a ∈ seen
      · simp [ha]
      · have hax : ¬x = a := fun h => ha (h ▸ hx)
        simp [ha, List.count_cons, hax]
    · rw [dedupKeepFirstAux, if_neg hx, List.count_cons, List.count_cons, ih]
      simp only [List.mem_cons, beq_iff_eq]
      by_cases hax : x = a
      · subst hax
        simp [hx]
      · have hax2 : ¬a = x := fun h => hax h.symm
        by_cases ha : a ∈ seen
        · simp [ha, hax, hax2]
        · simp [ha, hax, hax2]

theorem count_dedupKeepFirst {α : Type} [DecidableEq α] (a : α) (l : List α) :
    (dedupKeepFirst l).count a = min (l.count a) 1 := by
  rw [dedupKeepFirst, count_dedupKeepFirstAux]
  simp

theorem flatten_filter_nonempty {α : Type} (dfs : List (List α)) :
    (dfs.filter (fun d => !d.isEmpty)).flatten = dfs.flatten := by
  induction dfs with
  | nil => rfl
  | cons d ds ih =>
    by_cases hd : d.isEmpty
    · rw [List.isEmpty_iff] at hd
      subst hd
      simpa using ih
    · simp only [List.filter_cons]
      rw [if_pos (by simpa using hd)]
      simp [ih]

theorem merge_count (dfs : List (List Row)) (r : Row) :
    (merge_and_sort dfs).count r = min ((dfs.flatten).count r) 1 := by
  unfold merge_and_sort
  by_cases h : (dfs.filter (fun d => !d.isEmpty)).isEmpty
  · rw [if_pos h]
    rw [List.isEmpty_iff] at h
    have hflat : dfs.flatten = [] := by
      rw [← flatten_filter_nonempty dfs, h]
      rfl
    rw [hflat]
    simp
  · rw [if_neg h]
    unfold sortByDatetime
    rw [(List.perm_insertionSort (fun a b : Row => a.dt ≤ b.dt) _).count_eq]
    rw [count_dedupKeepFirst, flatten_filter_nonempty]

theorem traverseOpt_none {α β : Type} (f : α → Option β) :
    ∀ (l : List α) (x : α), x ∈ l → f x = none → traverseOpt f l = none := by
  intro l
  induction l with
  | nil => simp
  | cons y ys ih =>
    intro x hx hfx
    rcases List.mem_cons.1 hx with hxy | hxy
    · subst hxy
      cases hys : traverseOpt f ys <;> simp [traverseOpt, hfx, hys]
    · have h2 := ih x hxy hfx
      cases hfy : f y <;> simp [traverseOpt, hfy, h2]

theorem pre_parse_filter_blank (rows : List RawRow) :
    pre_parse (rows.filter (fun r => nonBlank (stripRow r))) = pre_parse rows := by
  unfold pre_parse
  rw [List.filter_comm, List.filter_map, List.filter_map, List.filter_filter]
  congr 1
  apply List.filter_congr
  intro x _
  simp [Function.comp, Bool.and_self]

/-! Claim theorems. -/

/-- Claim C7: for every input table, calling the downsampler with an interval of 0
is the identity on the rows, with the same row count and order. -/
theorem interval_zero_identity : ∀ rows : List Row, filter_by_interval rows 0 = rows := by
  intro rows
  simp [filter_by_interval]

/-- Claim C3 counterexample: two one-row files sharing the timestamp 5 with
different values in the other column both survive the merge, so the final
table holds two rows for one distinct Timestamp, not at most one. -/
theorem merge_keeps_equal_timestamps :
    (merge_and_sort [[⟨5, ["a"]⟩], [⟨5, ["b"]⟩]]).map Row.dt = [5, 5] := by
  decide

/-- Claim C3 amended: the merger deduplicates by full-row equality, not by
Timestamp: each distinct full row keeps exactly one copy (the first seen),
and rows agreeing only on the Timestamp all survive. -/
theorem merge_dedup_full_row_count :
    ∀ (dfs : List (List Row)) (r : Row),
      (merge_and_sort dfs).count r = min ((dfs.flatten).count r) 1 :=
  merge_count

/-- Claim C8: the merger treats two rows as duplicates only when every column value
matches: every input row is present in the output (so rows sharing a
Timestamp but differing elsewhere all survive) and no two fully identical
rows remain. -/
theorem merge_row_dedup_exact :
    ∀ dfs : List (List Row),
      (merge_and_sort dfs).Nodup ∧
        ∀ r : Row, r ∈ merge_and_sort dfs ↔ r ∈ dfs.flatten := by
  intro dfs
  constructor
  · rw [List.nodup_iff_count_le_one]
    intro r
    rw [merge_count]
    omega
  · intro r
    rw [← List.count_pos_iff, ← List.count_pos_iff, merge_count]
    omega

/-- Claim C4 counterexample: two rows of one bucket arriving in descending
timestamp order; the code keeps the first row in file order (timestamp 40),
not the first row by ascending Timestamp (timestamp 5) that the claim
requires. -/
theorem bucket_first_not_by_timestamp :
    filter_by_interval [⟨40, ["a"]⟩, ⟨5, ["b"]⟩] 60 = [⟨40, ["a"]⟩] ∧
    downsample_asc_first 60 [⟨40, ["a"]⟩, ⟨5, ["b"]⟩] = [⟨5, ["b"]⟩] := by
  decide

/-- Claim C2 counterexample: a single-file batch with rows at timestamps 50 and 70
and a 60 second interval. The code buckets from the epoch and returns both
rows; bucketing from the batch minimum Timestamp, as the claim states, would
put both rows in bucket 0 and return only the first. -/
theorem base_not_batch_minimum :
    main_reduce_phase [[⟨50, []⟩, ⟨70, []⟩]] 60 = [[⟨50, []⟩, ⟨70, []⟩]] ∧
    main_reduce_claimed [[⟨50, []⟩, ⟨70, []⟩]] 60 = [[⟨50, []⟩]] := by
  decide

/-- Claim C6: a date string of three slash-separated parts whose leading part has
two characters is promoted by the pivot rule (below 70 add 2000, otherwise
add 1900); a four-character year passes through unchanged; the date 69/01/01
normalizes to 2069-01-01 and 70/01/01 to 1970-01-01. -/
theorem two_digit_year_pivot :
    (∀ (s p0 p1 p2 : String) (v : Int),
        strSplit s '/' = [p0, p1, p2] → p0.length = 2 → pyInt p0 = some v →
        convert_short_year_to_full s =
          some (toString (v + (if v < 70 then 2000 else 1900)) ++ "/" ++ p1 ++ "/" ++ p2)) ∧
    (∀ (s p0 p1 p2 : String),
        strSplit s '/' = [p0, p1, p2] → p0.length = 4 →
        convert_short_year_to_full s = some s) ∧
    normalize_date "69/01/01" = some "2069-01-01" ∧
    normalize_date "70/01/01" = some "1970-01-01" := by
  refine ⟨?_, ?_, ?_, ?_⟩
  · intro s p0 p1 p2 v hsplit hlen hint
    unfold convert_short_year_to_full
    rw [hsplit]
    simp only [hlen, if_pos, hint]
    rfl
  · intro s p0 p1 p2 hsplit hlen
    unfold convert_short_year_to_full
    rw [hsplit]
    simp [hlen]
  · decide
  · decide

/-- Witness for the two-digit year pivot theorem on 69/01/01 and on a
four-digit year. -/
theorem two_digit_year_pivot_witness :
    convert_short_year_to_full "69/01/01" = some "2069/01/01" ∧
    convert_short_year_to_full "1970/01/01" = some "1970/01/01" := by
  constructor
  · rw [two_digit_year_pivot.1 "69/01/01" "69" "01" "01" 69 (by decide) (by decide) (by decide)]
    decide
  · exact two_digit_year_pivot.2.1 "1970/01/01" "1970" "01" "01" (by decide) (by decide)

/-- Claim C10: a row whose date or clock cell is empty once every whitespace
variant is stripped is removed before the parsing steps: the normalization
result of a file is unchanged when such rows are deleted up front (so they
never trigger a parse failure and never appear in the output), and every row
that reaches the parser has non-empty stripped date and clock cells. -/
theorem blank_rows_silently_removed :
    (∀ rows : List RawRow,
        normalize_rows rows =
          normalize_rows (rows.filter (fun r => nonBlank (stripRow r)))) ∧
    (∀ (rows : List RawRow) (r : RawRow), r ∈ pre_parse rows →
        r.date ≠ "" ∧ r.clock ≠ "") := by
  constructor
  · intro rows
    unfold normalize_rows
    rw [pre_parse_filter_blank]
  · intro rows r hr
    unfold pre_parse at hr
    have h2 := (List.mem_filter.1 hr).2
    unfold nonBlank at h2
    simpa using h2

/-- Witness for the blank-row removal theorem at a concrete file whose first
row has a whitespace-only date cell. -/
theorem blank_rows_silently_removed_witness :
    normalize_rows [⟨" ", "10:00", []⟩, ⟨"2020/01/01", "10:00:00", []⟩] =
      normalize_rows ([⟨" ", "10:00", []⟩, ⟨"2020/01/01", "10:00:00", []⟩].filter
        (fun r => nonBlank (stripRow r))) ∧
    (⟨"2020/01/01", "10:00:00", []⟩ : RawRow).date ≠ "" :=
  ⟨blank_rows_silently_removed.1 _,
   (blank_rows_silently_removed.2 [⟨"2020/01/01", "10:00:00", []⟩]
      ⟨"2020/01/01", "10:00:00", []⟩ (by decide)).1⟩

/-- Claim C1 counterexample: a file whose second row has an unparsable date. Alone,
the first row loads fine; with the bad row present the whole file result is
empty with an error diagnostic, not the surviving first row the claim
promises. -/
theorem row_parse_failure_empties_file :
    load_csv ⟨["日付", "時刻", "値"], [["2020/01/01", "12:00:00", "1"]]⟩ =
      ([⟨"2020-01-01", "12:00:00", ["1"]⟩], []) ∧
    load_csv ⟨["日付", "時刻", "値"],
        [["2020/01/01", "12:00:00", "1"], ["bad", "12:00:05", "2"]]⟩ =
      ([], [Diag.loadError]) := by
  decide

/-- Claim C1 amended: a Date or Time parse failure of any single surviving row is
file-fatal, not row-scoped: the strict and lenient parses raise, the handler
catches, and the whole file result becomes empty with an error diagnostic.
Only the doubled-header and blank-cell filters drop rows row-scoped. -/
theorem row_parse_failure_is_file_fatal :
    ∀ f : RawFile, schema_ok f →
      (∃ r, r ∈ pre_parse (file_raw_rows f) ∧ parse_row r = none) →
      load_csv f = ([], [Diag.loadError]) := by
  intro f hok hex
  obtain ⟨r, hr, hnone⟩ := hex
  obtain ⟨h1, h2⟩ := hok
  unfold load_csv
  rw [if_neg (by simp [h1, h2])]
  rw [if_neg (by simp [h1, h2])]
  have herr : normalize_rows (file_raw_rows f) = Except.error Diag.loadError := by
    unfold normalize_rows
    rw [traverseOpt_none parse_row _ r hr hnone]
  rw [herr]

/-- Witness for the file-fatal parse failure theorem at a concrete file. -/
theorem row_parse_failure_is_file_fatal_witness :
    load_csv ⟨["Date", "Time"], [["x/y/z", "10:00"]]⟩ = ([], [Diag.loadError]) :=
  row_parse_failure_is_file_fatal ⟨["Date", "Time"], [["x/y/z", "10:00"]]⟩
    (by decide) ⟨⟨"x/y/z", "10:00", []⟩, by decide, by decide⟩

/-- Claim C9: a file whose headers do not resolve to exactly one date-role and one
clock-role column is rejected as a whole: empty result with a diagnostic
(the missing-column warning when a role has no column, the caught accessor
error when a role has several), while every other file of the batch is
processed independently. -/
theorem schema_failure_rejects_file :
    ∀ f : RawFile, ¬ schema_ok f →
      ((load_csv f).1 = [] ∧ (load_csv f).2 ≠ []) ∧
      ∀ pre post : List RawFile,
        main_load_phase (pre ++ f :: post) =
          main_load_phase pre ++ load_csv f :: main_load_phase post := by
  intro f hbad
  constructor
  · unfold load_csv
    by_cases h0 : countRole (renamedHeaders f) "日付" = 0 ∨ countRole (renamedHeaders f) "時刻" = 0
    · rw [if_pos h0]
      exact ⟨rfl, by simp⟩
    · rw [if_neg h0]
      have hlt : 1 < countRole (renamedHeaders f) "日付" ∨
          1 < countRole (renamedHeaders f) "時刻" := by
        unfold schema_ok at hbad
        omega
      rw [if_pos hlt]
      exact ⟨rfl, by simp⟩
  · intro pre post
    unfold main_load_phase
    simp

/-- Witness for the schema rejection theorem at the file of the spec example,
whose headers carry no date-role column. -/
theorem schema_failure_rejects_file_witness :
    ((load_csv ⟨["Value1", "Value2"], [["1", "2"]]⟩).1 = [] ∧
      (load_csv ⟨["Value1", "Value2"], [["1", "2"]]⟩).2 ≠ []) ∧
    main_load_phase [⟨["Value1", "Value2"], [["1", "2"]]⟩] =
      main_load_phase [] ++
        load_csv ⟨["Value1", "Value2"], [["1", "2"]]⟩ :: main_load_phase [] :=
  ⟨(schema_failure_rejects_file ⟨["Value1", "Value2"], [["1", "2"]]⟩ (by decide)).1,
   (schema_failure_rejects_file ⟨["Value1", "Value2"], [["1", "2"]]⟩ (by decide)).2 [] []⟩

theorem dedupKeepFirstAux_map_inj {g : Int → Int} (hg : Function.Injective g) :
    ∀ l seen : List Int,
      dedupKeepFirstAux (seen.map g) (l.map g) = (dedupKeepFirstAux seen l).map g := by
  have hmem : ∀ (y : Int) (s : List Int), (g y ∈ s.map g) ↔ y ∈ s := by
    intro y s
    constructor
    · intro hm
      obtain ⟨a, ha, hga⟩ := List.mem_map.1 hm
      exact (hg hga) ▸ ha
    · exact List.mem_map_of_mem g
  intro l
  induction l with
  | nil =>
    intro seen
    rfl
  | cons x xs ih =>
    intro seen
    rw [List.map_cons, dedupKeepFirstAux, dedupKeepFirstAux]
    by_cases hx : x ∈ seen
    · rw [if_pos ((hmem x seen).2 hx), if_pos hx]
      exact ih seen
    · rw [if_neg (fun hc => hx ((hmem x seen).1 hc)), if_neg hx, List.map_cons]
      congr 1
      have hstep := ih (x :: seen)
      rw [List.map_cons] at hstep
      exact hstep

theorem orderedInsert_map_mono {g : Int → Int} (hg : ∀ a b : Int, g a ≤ g b ↔ a ≤ b)
    (a : Int) : ∀ l : List Int,
      List.orderedInsert (fun x y => x ≤ y) (g a) (l.map g) =
        (List.orderedInsert (fun x y => x ≤ y) a l).map g := by
  intro l
  induction l with
  | nil => rfl
  | cons b bs ih =>
    rw [List.map_cons, List.orderedInsert, List.orderedInsert]
    by_cases hab : a ≤ b
    · rw [if_pos ((hg a b).2 hab), if_pos hab, List.map_cons, List.map_cons]
    · rw [if_neg (fun hc => hab ((hg a b).1 hc)), if_neg hab, List.map_cons, ih]

theorem insertionSort_map_mono {g : Int → Int} (hg : ∀ a b : Int, g a ≤ g b ↔ a ≤ b) :
    ∀ l : List Int,
      List.insertionSort (fun x y => x ≤ y) (l.map g) =
        (List.insertionSort (fun x y => x ≤ y) l).map g := by
  intro l
  induction l with
  | nil => rfl
  | cons x xs ih =>
    rw [List.map_cons, List.insertionSort, List.insertionSort, ih,
      orderedInsert_map_mono hg]

theorem groupFirstBy_scale (n : Int) (hn : 0 < n) (f : Int → Int) (rows : List Row) :
    groupFirstBy (fun t => n * f t) rows = groupFirstBy f rows := by
  have hinj : Function.Injective (fun k : Int => n * k) := by
    intro a b hab
    exact (mul_right_inj' (ne_of_gt hn)).1 hab
  have hmono : ∀ a b : Int, n * a ≤ n * b ↔ a ≤ b := by
    intro a b
    exact mul_le_mul_left hn
  unfold groupFirstBy
  have hmap : rows.map (fun r => n * f r.dt) =
      (rows.map (fun r => f r.dt)).map (fun k => n * k) := by
    rw [List.map_map]
    rfl
  rw [hmap]
  have hded : dedupKeepFirst ((rows.map (fun r => f r.dt)).map (fun k => n * k)) =
      (dedupKeepFirst (rows.map (fun r => f r.dt))).map (fun k => n * k) := by
    unfold dedupKeepFirst
    have hbase := dedupKeepFirstAux_map_inj hinj (rows.map (fun r => f r.dt)) []
    simpa using hbase
  rw [hded, insertionSort_map_mono hmono, List.filterMap_map]
  congr 1
  funext k
  show rows.find? (fun r => n * f r.dt == n * k) = rows.find? (fun r => f r.dt == k)
  congr 1
  funext r
  show (n * f r.dt == n * k) = (f r.dt == k)
  by_cases h : f r.dt = k
  · simp [h]
  · have hne : ¬n * f r.dt = n * k := fun hc => h (hinj hc)
    simp [h, hne]

/-- Claim C2 amended: for every batch and every positive interval, the bucket of a
row is its timestamp floored to a multiple of the interval counted from the
epoch (pandas dt.floor): the code equals the spec downsampler with the base
fixed at epoch 0 for every file. The base is therefore shared by the whole
batch, but it is the epoch, not the minimum Timestamp across all files, and
no batch-wide minimum is computed anywhere. -/
theorem bucket_base_is_epoch :
    ∀ (dfs : List (List Row)) (n : Int), 0 < n →
      main_reduce_phase dfs n = dfs.map (fun df => downsample_with_base 0 n df) := by
  intro dfs n hn
  have hfun : ∀ df : List Row, filter_by_interval df n = downsample_with_base 0 n df := by
    intro df
    unfold filter_by_interval downsample_with_base
    rw [if_neg (not_le.2 hn), if_neg (not_le.2 hn)]
    have hkey : (fun t : Int => (t - 0).fdiv n) = fun t : Int => t.fdiv n := by
      funext t
      rw [sub_zero]
    rw [hkey]
    have hscale := groupFirstBy_scale n hn (fun t => t.fdiv n) df
    have hfloor : (fun t : Int => floorToInterval n t) =
        fun t : Int => n * t.fdiv n := by
      funext t
      rfl
    rw [hfloor]
    exact hscale
  unfold main_reduce_phase
  simp only [hfun]

/-- Witness for the epoch-base theorem at a concrete batch and interval. -/
theorem bucket_base_is_epoch_witness :
    main_reduce_phase [[⟨50, []⟩, ⟨70, []⟩]] 60 =
      [[⟨50, []⟩, ⟨70, []⟩]].map (fun df => downsample_with_base 0 60 df) :=
  bucket_base_is_epoch [[⟨50, []⟩, ⟨70, []⟩]] 60 (by decide)

/-- Claim C4 amended: for every positive interval the downsampler keeps, in each
bucket, the first row in file order; when the rows of the table are already
in ascending Timestamp order this coincides with the earliest row of the
bucket, and the concrete example of the claim (rows at second offsets 36005,
36040, 36070 of the day, one-minute interval) reduces to the rows at 36005
and 36070 retained whole. -/
theorem bucket_keeps_first_in_file_order :
    (∀ (rows : List Row) (n : Int), 0 < n →
        List.Sorted (fun a b : Row => a.dt ≤ b.dt) rows →
        filter_by_interval rows n = downsample_asc_first n rows) ∧
    filter_by_interval [⟨36005, ["a"]⟩, ⟨36040, ["b"]⟩, ⟨36070, ["c"]⟩] 60 =
      [⟨36005, ["a"]⟩, ⟨36070, ["c"]⟩] := by
  constructor
  · intro rows n hn hsorted
    unfold filter_by_interval downsample_asc_first
    rw [if_neg (not_le.2 hn), if_neg (not_le.2 hn)]
    unfold sortByDatetime
    rw [hsorted.insertionSort_eq]
  · decide

/-- Witness for the file-order bucket theorem at a concrete ascending
table. -/
theorem bucket_keeps_first_in_file_order_witness :
    filter_by_interval [⟨36005, ["a"]⟩, ⟨36070, ["c"]⟩] 60 =
      downsample_asc_first 60 [⟨36005, ["a"]⟩, ⟨36070, ["c"]⟩] :=
  bucket_keeps_first_in_file_order.1 [⟨36005, ["a"]⟩, ⟨36070, ["c"]⟩] 60
    (by decide) (by decide)

end Logdeta
